import Mathlib

/-!
Shallow embedding of `acquisition/protocols/lsl/lsl_device.py` (class
`LslDevice`): stream connection, metadata negotiation
(`acquisition_init` / `_read_channels`) and the sample/marker merge loop
(`read_data`, `_current_marker_set`, `_clear_current_marker`).

Timestamps are modelled as rationals (the Python code only compares and
subtracts them).  A marker pulled from the marker inlet is a pair of a
channel-value list and a timestamp; the Python sentinel pair
`(None, None)` (and any pull result whose first component is `None`)
is modelled by `Option.none`.  Python exceptions and failing `assert`
statements are modelled by `Except` with an explicit error kind.
-/

namespace LslSpec

/-- `TRG` constant from the module. -/
def TRG : String := "TRG"

/-- `LSL_timestamp` constant from the module. -/
def LSL_TIMESTAMP : String := "LSL_timestamp"

/-- Error kinds.  Each constructor corresponds to one `raise` or failing
`assert` site in `lsl_device.py`:
* `connectionError` — the `assert len(streams) > 0` / `assert
  len(marker_streams) > 0` checks in `connect`;
* `channelsRequired` — the `assert len(self.channels) > 0, "Channels must
  be provided"` check in `acquisition_init`;
* `channelMismatch` — `raise Exception("Channels read from the device do
  not match the provided parameters")`;
* `channelCountError` — the `assert len(self.channels) == ...["Channel
  count error"]` check;
* `rateMismatch` — `raise Exception("Sample frequency read from device
  does not match the provided parameter")`;
* `indexError` — the `IndexError` raised by `marker_channels[0]` in
  `read_data` when the marker channel list is empty. -/
inductive AcqError where
  | connectionError
  | channelsRequired
  | channelMismatch
  | channelCountError
  | rateMismatch
  | indexError
  deriving DecidableEq, Repr

/-- `connect`: resolve the EEG streams and the marker streams,
assert both lists are non-empty, and bind an inlet to the first element
of each.  `α` stands for the transport's stream handles. -/
def connect {α : Type} (streams markerStreams : List α) :
    Except AcqError (α × α) :=
  match streams, markerStreams with
  | s :: _, m :: _ => .ok (s, m)
  | _, _ => .error .connectionError

/-- Device metadata as read from the primary inlet (`self._inlet.info()`):
`channel_count()`, `nominal_srate()`, and the `desc/channels` element —
`none` when `info.desc().child("channels").empty()` is true, otherwise the
list of `label` child values of the sibling chain of `channel` elements. -/
structure Metadata where
  channelCount : Nat
  nominalSrate : ℚ
  channelLabels : Option (List String)
  deriving DecidableEq, Repr

/-- The `self._appended_channels` list built in `__init__`:
`LSL_timestamp` first when `include_lsl_timestamp` is set, then always
`TRG`. -/
def appendedChannels (includeLslTimestamp : Bool) : List String :=
  (if includeLslTimestamp then [LSL_TIMESTAMP] else []) ++ [TRG]

/-- The label-reading loop of `_read_channels`: `channel_count` iterations
of `ch.child_value("label")` followed by `ch.next_sibling()`.  When the
sibling chain is exhausted `child_value` yields the empty string. -/
def readLabels : List String → Nat → List String
  | _, 0 => []
  | [], n + 1 => "" :: readLabels [] n
  | l :: rest, n + 1 => l :: readLabels rest n

/-- `_read_channels`: empty list when the metadata has no `channels`
descriptor; otherwise the read labels followed by the appended channel
names. -/
def readChannels (md : Metadata) (appended : List String) : List String :=
  match md.channelLabels with
  | none => []
  | some labels => readLabels labels md.channelCount ++ appended

/-- The channel-reconciliation part of `acquisition_init`: the
`if not self.channels ... else ...` block followed by the channel-count
assertion. -/
def resolveChannels (channels : List String) (includeLslTimestamp : Bool)
    (md : Metadata) : Except AcqError (List String) :=
  let appended := appendedChannels includeLslTimestamp
  let infoChannels := readChannels md appended
  (if channels.isEmpty then
    if 0 < infoChannels.length then Except.ok infoChannels
    else Except.error AcqError.channelsRequired
  else
    if 0 < infoChannels.length ∧ channels ≠ infoChannels then
      Except.error AcqError.channelMismatch
    else Except.ok channels).bind fun chans =>
  if chans.length = md.channelCount + appended.length then Except.ok chans
  else Except.error AcqError.channelCountError

/-- The sample-rate part of `acquisition_init`:
`if not self.fs: self.fs = info_fs elif self.fs != info_fs: raise ...`.
The caller's `fs` is `none` when not provided; a configured value of `0`
is falsy in Python and is treated like `none`. -/
def reconcileRate (fs : Option ℚ) (infoFs : ℚ) : Except AcqError ℚ :=
  match fs with
  | none => .ok infoFs
  | some q =>
    if q = 0 then .ok infoFs
    else if q ≠ infoFs then .error .rateMismatch
    else .ok q

/-- `acquisition_init`: channel reconciliation, then rate reconciliation,
in the source's order.  Returns the resolved `(channels, fs)` pair. -/
def acquisitionInit (channels : List String) (fs : Option ℚ)
    (includeLslTimestamp : Bool) (md : Metadata) :
    Except AcqError (List String × ℚ) :=
  (resolveChannels channels includeLslTimestamp md).bind fun chans =>
  (reconcileRate fs md.nominalSrate).bind fun fsOut =>
  Except.ok (chans, fsOut)

/-- A marker pulled from the marker inlet: channel values and timestamp. -/
abbrev Marker := List String × ℚ

/-- One entry of an emitted record: the pulled values and the optional
pass-through timestamp are numbers, the trigger field is a string. -/
inductive Entry where
  | num (q : ℚ)
  | str (s : String)
  deriving DecidableEq, Repr

/-- Mutable state of the merge loop: `self._current_marker` (with the
`(None, None)` sentinel modelled as `none`) together with the marker
inlet's buffer of not-yet-pulled markers, ordered oldest first.  A
zero-timeout `pull_sample` on the marker inlet returns the buffer's head
when the buffer is non-empty and the `None` sentinel otherwise. -/
structure RState where
  pending : Option Marker
  queue : List Marker
  deriving DecidableEq, Repr

/-- `_current_marker_set`: true iff `self._current_marker` is truthy and
its first component is not `None` — i.e. iff the option holds a value
(the channel-value list may still be empty). -/
def currentMarkerSet (m : Option Marker) : Bool :=
  m.isSome

/-- The conditional marker poll of `read_data`: `self._marker_inlet
.pull_sample(timeout=0.0)` is issued only when `_current_marker_set()` is
false; the zero-timeout pull takes the buffer's head when one is
available and leaves the `None` sentinel otherwise. -/
def pollMarker (st : RState) : Option Marker × List Marker :=
  if currentMarkerSet st.pending then (st.pending, st.queue)
  else
    match st.queue with
    | m :: rest => (some m, rest)
    | [] => (none, st.queue)

/-- The record before the trigger is appended: the pulled sample values,
then (`if LSL_TIMESTAMP in self._appended_channels`) the sample's own
timestamp. -/
def baseRecord (includeLslTimestamp : Bool) (sample : List ℚ)
    (timestamp : ℚ) : List Entry :=
  sample.map Entry.num ++
    (if (appendedChannels includeLslTimestamp).contains LSL_TIMESTAMP
     then [Entry.num timestamp] else [])

/-- `read_data`, given the pulled `(sample, timestamp)` as input: the
conditional zero-timeout marker poll, the causal-resolution test
(`timestamp >= marker_timestamp`), the optional timestamp pass-through,
and the trigger append guarded by `assign_current_marker and trg`.
Returns the emitted record and the updated state, or `indexError` when
the held marker's channel-value list is empty (`marker_channels[0]`). -/
def readData (includeLslTimestamp : Bool) (st : RState)
    (sample : List ℚ) (timestamp : ℚ) :
    Except AcqError (List Entry × RState) :=
  match pollMarker st with
  | (some (markerChannels, markerTimestamp), queue) =>
    match markerChannels with
    | [] => .error .indexError
    | trg :: _ =>
      if timestamp ≥ markerTimestamp ∧ trg ≠ "" then
        .ok (baseRecord includeLslTimestamp sample timestamp ++
              [Entry.str trg], ⟨none, queue⟩)
      else
        .ok (baseRecord includeLslTimestamp sample timestamp ++
              [Entry.str "0"],
             ⟨some (markerChannels, markerTimestamp), queue⟩)
  | (none, queue) =>
    .ok (baseRecord includeLslTimestamp sample timestamp ++
          [Entry.str "0"], ⟨none, queue⟩)

/-- A sequence of `read_data` calls: each input is the `(sample,
timestamp)` pair pulled from the primary inlet on that call; the state is
threaded through and the emitted records are collected in order. -/
def runReads (includeLslTimestamp : Bool) (st : RState) :
    List (List ℚ × ℚ) → Except AcqError (List (List Entry) × RState)
  | [] => .ok ([], st)
  | (s, ts) :: rest =>
    (readData includeLslTimestamp st s ts).bind fun out =>
    (runReads includeLslTimestamp out.2 rest).bind fun outs =>
    .ok (out.1 :: outs.1, outs.2)

/-! ## Helper lemmas -/

lemma contains_lsl_timestamp (b : Bool) :
    (appendedChannels b).contains LSL_TIMESTAMP = b := by
  cases b <;> rfl

lemma appendedChannels_ne_nil (b : Bool) : appendedChannels b ≠ [] := by
  cases b <;> simp [appendedChannels]

lemma length_appendedChannels (b : Bool) :
    (appendedChannels b).length = (if b then 1 else 0) + 1 := by
  cases b <;> rfl

lemma readLabels_self (l : List String) : readLabels l l.length = l := by
  induction l with
  | nil => rfl
  | cons x xs ih => simp [readLabels, List.length_cons, ih]

lemma readChannels_of_some (md : Metadata) (labels : List String)
    (app : List String) (h : md.channelLabels = some labels) :
    readChannels md app = readLabels labels md.channelCount ++ app := by
  simp [readChannels, h]

/-- Shared mismatch fact: with a channel descriptor present and a
non-empty caller list differing from the device-derived list,
`acquisition_init` raises the channel-mismatch exception. -/
lemma init_mismatch_of_ne (channels : List String) (fs : Option ℚ)
    (incl : Bool) (md : Metadata) (labels : List String)
    (h1 : channels ≠ []) (h2 : md.channelLabels = some labels)
    (h3 : channels ≠ readChannels md (appendedChannels incl)) :
    acquisitionInit channels fs incl md = .error .channelMismatch := by
  have hread := readChannels_of_some md labels (appendedChannels incl) h2
  have hne : readChannels md (appendedChannels incl) ≠ [] := by
    rw [hread]
    intro hcontra
    exact appendedChannels_ne_nil incl (List.append_eq_nil.mp hcontra).2
  have hpos : 0 < (readChannels md (appendedChannels incl)).length :=
    List.length_pos.mpr hne
  have hemp : channels.isEmpty = false := by
    simpa [List.isEmpty_iff] using h1
  unfold acquisitionInit resolveChannels
  simp [hemp, hpos, h3, Except.bind]

lemma baseRecord_eq (b : Bool) (s : List ℚ) (ts : ℚ) :
    baseRecord b s ts =
      s.map Entry.num ++ (if b then [Entry.num ts] else []) := by
  cases b <;> rfl

lemma length_baseRecord (b : Bool) (s : List ℚ) (ts : ℚ) :
    (baseRecord b s ts).length = s.length + (if b then 1 else 0) := by
  cases b <;> simp [baseRecord_eq]

lemma pollMarker_of_pending (m : Marker) (q : List Marker) :
    pollMarker ⟨some m, q⟩ = (some m, q) := rfl

lemma pollMarker_none_cons (m : Marker) (rest : List Marker) :
    pollMarker ⟨none, m :: rest⟩ = (some m, rest) := rfl

lemma pollMarker_none_nil : pollMarker ⟨none, []⟩ = (none, []) := rfl

/-- One `read_data` step while a marker with a non-empty label is held:
attached when the sample timestamp has caught up, deferred (trigger
`"0"`, marker kept, inlet not polled) otherwise. -/
lemma readData_of_pending (incl : Bool) (l : String) (tl : List String)
    (mts : ℚ) (q : List Marker) (s : List ℚ) (ts : ℚ) :
    readData incl ⟨some (l :: tl, mts), q⟩ s ts =
      if ts ≥ mts ∧ l ≠ "" then
        .ok (baseRecord incl s ts ++ [Entry.str l], ⟨none, q⟩)
      else
        .ok (baseRecord incl s ts ++ [Entry.str "0"],
             ⟨some (l :: tl, mts), q⟩) := by
  rfl

lemma readData_of_pending_nil (incl : Bool) (mts : ℚ) (q : List Marker)
    (s : List ℚ) (ts : ℚ) :
    readData incl ⟨some ([], mts), q⟩ s ts = .error .indexError := rfl

lemma readData_none_cons (incl : Bool) (m : Marker) (rest : List Marker)
    (s : List ℚ) (ts : ℚ) :
    readData incl ⟨none, m :: rest⟩ s ts =
      readData incl ⟨some m, rest⟩ s ts := by
  obtain ⟨chans, mts⟩ := m
  rfl

lemma readData_none_nil (incl : Bool) (s : List ℚ) (ts : ℚ) :
    readData incl ⟨none, []⟩ s ts =
      .ok (baseRecord incl s ts ++ [Entry.str "0"], ⟨none, []⟩) := rfl

/-- Characterization of a successful `read_data` step taken while a
marker is held pending: either the marker is attached (its label is the
appended trigger and the slot is cleared) or the record gets trigger
`"0"` and the state is unchanged. -/
lemma shape_of_pending (incl : Bool) (l : String) (tl : List String)
    (mts : ℚ) (q : List Marker) (s : List ℚ) (ts : ℚ) (r : List Entry)
    (st' : RState)
    (h : readData incl ⟨some (l :: tl, mts), q⟩ s ts = .ok (r, st')) :
    (r = s.map Entry.num ++ (if incl then [Entry.num ts] else [])
        ++ [Entry.str l]
      ∧ ts ≥ mts ∧ l ≠ "" ∧ st' = ⟨none, q⟩)
    ∨ (r = s.map Entry.num ++ (if incl then [Entry.num ts] else [])
        ++ [Entry.str "0"]
      ∧ st' = ⟨some (l :: tl, mts), q⟩) := by
  rw [readData_of_pending] at h
  by_cases hc : ts ≥ mts ∧ l ≠ ""
  · rw [if_pos hc] at h
    simp only [Except.ok.injEq, Prod.mk.injEq] at h
    exact Or.inl ⟨by rw [← h.1, baseRecord_eq], hc.1, hc.2, h.2.symm⟩
  · rw [if_neg hc] at h
    simp only [Except.ok.injEq, Prod.mk.injEq] at h
    exact Or.inr ⟨by rw [← h.1, baseRecord_eq], h.2.symm⟩

lemma length_base_trigger (incl : Bool) (s : List ℚ) (ts : ℚ)
    (t : String) :
    (s.map Entry.num ++ (if incl then [Entry.num ts] else [])
      ++ [Entry.str t]).length =
      s.length + (appendedChannels incl).length := by
  cases incl <;>
    simp [List.length_append, length_appendedChannels]

/-! ## Claim theorems -/

/-- C7: `connect` fails with the connection error whenever the EEG query
or the marker query returns no candidate streams; when both return at
least one candidate it binds to the first candidate of each kind. -/
theorem connect_spec {α : Type} (streams markerStreams : List α) :
    ((streams = [] ∨ markerStreams = []) →
      connect streams markerStreams = .error .connectionError)
    ∧ (∀ s ss m ms, streams = s :: ss → markerStreams = m :: ms →
      connect streams markerStreams = .ok (s, m)) := by
  constructor
  · rintro (rfl | rfl)
    · cases markerStreams <;> rfl
    · cases streams <;> rfl
  · rintro s ss m ms rfl rfl
    rfl

theorem connect_spec_witness :
    connect ([] : List Nat) [] = .error .connectionError
    ∧ connect [1, 2] [3, 4] = .ok (1, 3) :=
  ⟨(connect_spec ([] : List Nat) []).1 (Or.inl rfl),
   (connect_spec [1, 2] [3, 4]).2 1 [2] 3 [4] rfl rfl⟩

/-- C2 counterexample: with no channel descriptor, caller channels
`["c1","c2"]`, `fs = 100`, passthrough disabled (device channel count 1,
nominal rate 100 so that nothing else raises), `acquisition_init`
succeeds but the resolved channel list is the caller's list verbatim,
`["c1","c2"]` of length 2 — not `["c1","c2","TRG"]` of length 3 as the
claim states: no `TRG` is ever appended to a caller-provided list. -/
theorem scenario1_counterexample :
    acquisitionInit ["c1", "c2"] (some 100) false ⟨1, 100, none⟩ =
      .ok (["c1", "c2"], 100)
    ∧ (["c1", "c2"] : List String) ≠ ["c1", "c2", TRG]
    ∧ (["c1", "c2"] : List String).length = 2 :=
  ⟨rfl, by simp, rfl⟩

/-- C2 amended: when the device reports no channel descriptor, caller
channels `["c1","c2"]`, `fs = 100`, passthrough disabled, and the device
additionally reports channel count 1 and nominal rate 100,
`acquisition_init` succeeds and resolves to the caller's list verbatim,
`["c1","c2"]` (length 2). -/
theorem scenario1_amended (md : Metadata) (h1 : md.channelLabels = none)
    (h2 : md.channelCount = 1) (h3 : md.nominalSrate = 100) :
    acquisitionInit ["c1", "c2"] (some 100) false md =
      .ok (["c1", "c2"], 100) := by
  rcases md with ⟨c, r, lab⟩
  simp only at h1 h2 h3
  subst h1 h2 h3
  rfl

theorem scenario1_amended_witness :
    acquisitionInit ["c1", "c2"] (some 100) false ⟨1, 100, none⟩ =
      .ok (["c1", "c2"], 100) :=
  scenario1_amended ⟨1, 100, none⟩ rfl rfl rfl

/-- C4 counterexample: caller list `["b","TRG"]` and device-reported raw
labels `["b"]` are both non-empty and differ by an entry, yet
`acquisition_init` succeeds (no `ChannelMismatchError`): the comparison
is against the device labels with the appended names, `["b","TRG"]`. -/
theorem channel_mismatch_counterexample :
    (["b", TRG] : List String) ≠ ["b"]
    ∧ acquisitionInit ["b", TRG] none false ⟨1, 100, some ["b"]⟩ =
      .ok (["b", TRG], 100) :=
  ⟨by simp, rfl⟩

/-- C4 amended: with a channel descriptor present, negotiation raises the
channel-mismatch error whenever the caller's non-empty channel list
differs from the device-derived comparison list (read labels followed by
the appended synthetic names); in particular caller `["a"]` against
device labels `["b"]` raises. -/
theorem channel_mismatch_amended (channels : List String) (fs : Option ℚ)
    (incl : Bool) (md : Metadata) (labels : List String)
    (h1 : channels ≠ []) (h2 : md.channelLabels = some labels)
    (h3 : channels ≠ readChannels md (appendedChannels incl)) :
    acquisitionInit channels fs incl md = .error .channelMismatch :=
  init_mismatch_of_ne channels fs incl md labels h1 h2 h3

theorem channel_mismatch_amended_witness :
    (["a"] : List String) ≠ readChannels ⟨1, 100, some ["b"]⟩
      (appendedChannels false)
    ∧ acquisitionInit ["a"] none false ⟨1, 100, some ["b"]⟩ =
      .error .channelMismatch :=
  ⟨by simp [readChannels, readLabels, appendedChannels, TRG],
   channel_mismatch_amended ["a"] none false ⟨1, 100, some ["b"]⟩ ["b"]
     (by simp) rfl
     (by simp [readChannels, readLabels, appendedChannels, TRG])⟩

/-- C9: when the device reports a non-empty label list (consistent with
its channel count), the list negotiation compares against is the device
labels with the appended synthetic names concatenated at the end; a
caller list equal to the raw labels alone therefore raises the
channel-mismatch error. -/
theorem comparison_includes_appended (md : Metadata) (labels : List String)
    (fs : Option ℚ) (incl : Bool) (h1 : md.channelLabels = some labels)
    (h2 : md.channelCount = labels.length) :
    readChannels md (appendedChannels incl) = labels ++ appendedChannels incl
    ∧ (labels ≠ [] →
      acquisitionInit labels fs incl md = .error .channelMismatch) := by
  have hread : readChannels md (appendedChannels incl) =
      labels ++ appendedChannels incl := by
    rw [readChannels_of_some md labels _ h1, h2, readLabels_self]
  refine ⟨hread, fun hne => ?_⟩
  refine init_mismatch_of_ne labels fs incl md labels hne h1 ?_
  rw [hread]
  intro hcontra
  have hlen := congrArg List.length hcontra
  rw [List.length_append] at hlen
  have : (appendedChannels incl).length = 0 := by omega
  exact appendedChannels_ne_nil incl (List.length_eq_zero.mp this)

theorem comparison_includes_appended_witness :
    readChannels ⟨1, 100, some ["b"]⟩ (appendedChannels false) =
      ["b"] ++ appendedChannels false
    ∧ acquisitionInit ["b"] none false ⟨1, 100, some ["b"]⟩ =
      .error .channelMismatch :=
  ⟨(comparison_includes_appended ⟨1, 100, some ["b"]⟩ ["b"] none false
      rfl rfl).1,
   (comparison_includes_appended ⟨1, 100, some ["b"]⟩ ["b"] none false
      rfl rfl).2 (by simp)⟩

/-- C6: provided channel reconciliation succeeds, the rate step of
`acquisition_init` adopts the device's nominal rate when the caller's
rate is unset; fails with the rate-mismatch error when both rates are
set (non-zero) and differ; and keeps the caller's rate when both are set
and equal. -/
theorem rate_reconciliation (channels chans : List String) (incl : Bool)
    (md : Metadata) (h : resolveChannels channels incl md = .ok chans) :
    acquisitionInit channels none incl md = .ok (chans, md.nominalSrate)
    ∧ (∀ q : ℚ, q ≠ 0 → md.nominalSrate ≠ 0 → q ≠ md.nominalSrate →
      acquisitionInit channels (some q) incl md = .error .rateMismatch)
    ∧ (∀ q : ℚ, q ≠ 0 → q = md.nominalSrate →
      acquisitionInit channels (some q) incl md = .ok (chans, q)) := by
  unfold acquisitionInit
  rw [h]
  refine ⟨by simp [reconcileRate, Except.bind], ?_, ?_⟩
  · intro q hq hn hqn
    simp [reconcileRate, hq, hqn, Except.bind]
  · intro q hq hqn
    simp [reconcileRate, hq, hqn, Except.bind]

theorem rate_reconciliation_witness :
    resolveChannels ["c1"] false ⟨0, 100, none⟩ = .ok ["c1"]
    ∧ acquisitionInit ["c1"] none false ⟨0, 100, none⟩ = .ok (["c1"], 100)
    ∧ acquisitionInit ["c1"] (some 50) false ⟨0, 100, none⟩ =
      .error .rateMismatch
    ∧ acquisitionInit ["c1"] (some 100) false ⟨0, 100, none⟩ =
      .ok (["c1"], 100) :=
  ⟨rfl,
   (rate_reconciliation ["c1"] ["c1"] false ⟨0, 100, none⟩ rfl).1,
   (rate_reconciliation ["c1"] ["c1"] false ⟨0, 100, none⟩ rfl).2.1 50
     (by norm_num) (by norm_num) (by norm_num),
   (rate_reconciliation ["c1"] ["c1"] false ⟨0, 100, none⟩ rfl).2.2 100
     (by norm_num) rfl⟩

/-- C8: once a marker whose first channel value is the empty string has
been polled into the pending slot, every subsequent sequence of
`read_data` calls leaves the state unchanged (the marker inlet is never
polled again: the buffer `q` is untouched and the marker stays pending)
and every emitted record's final field is the trigger `"0"`. -/
theorem falsy_marker_never_cleared (incl : Bool) (tl : List String)
    (mts : ℚ) (q : List Marker) (ins : List (List ℚ × ℚ)) :
    runReads incl ⟨some ("" :: tl, mts), q⟩ ins =
      .ok (ins.map fun p => baseRecord incl p.1 p.2 ++ [Entry.str "0"],
           ⟨some ("" :: tl, mts), q⟩) := by
  induction ins with
  | nil => rfl
  | cons p rest ih =>
    obtain ⟨s, ts⟩ := p
    have hstep := readData_of_pending incl "" tl mts q s ts
    rw [if_neg (by simp)] at hstep
    simp only [runReads, hstep, Except.bind, List.map_cons, ih]

/-- C10: a marker pulled from the inlet with an empty channel-value list
passes `_current_marker_set` (which only tests the first tuple component
against `None`), and the subsequent `marker_channels[0]` access makes
`read_data` fail with an out-of-bounds indexing error. -/
theorem empty_marker_values_index_error (incl : Bool) (mts : ℚ)
    (rest : List Marker) (s : List ℚ) (ts : ℚ) :
    currentMarkerSet (some ([], mts)) = true
    ∧ readData incl ⟨none, ([], mts) :: rest⟩ s ts = .error .indexError :=
  ⟨rfl, rfl⟩

/-- C1 counterexample: the marker `([""], 1)` is delivered by the marker
stream and becomes pending at the first call; the first sample (ts = 1)
already satisfies `timestamp >= marker_timestamp`, so the claim requires
the marker to be attached to that record — but both emitted records carry
trigger `"0"` and the marker is still pending afterwards: a marker with a
falsy label is attached to no record at all. -/
theorem marker_attach_counterexample :
    runReads false ⟨none, [([""], (1 : ℚ))]⟩ [([], 1), ([], 2)] =
      .ok ([[Entry.str "0"], [Entry.str "0"]],
           ⟨some ([""], (1 : ℚ)), []⟩)
    ∧ Entry.str "0" ≠ Entry.str "" :=
  ⟨rfl, by simp⟩

/-- C1 amended: a marker whose label is non-empty (truthy) is attached to
exactly one record: starting from the state holding it pending, if every
earlier sample's timestamp is below the marker timestamp and the final
sample's timestamp has caught up (`>=`, so a coincident sample counts),
then every earlier record carries trigger `"0"`, the catch-up record
carries the marker's label, the pending slot is cleared exactly there,
and the marker buffer is never polled in between. -/
theorem marker_attach_amended (incl : Bool) (l : String) (tl : List String)
    (mts : ℚ) (q : List Marker) (pre : List (List ℚ × ℚ)) (s : List ℚ)
    (ts : ℚ) (hl : l ≠ "") (hpre : ∀ p ∈ pre, p.2 < mts)
    (hts : mts ≤ ts) :
    runReads incl ⟨some (l :: tl, mts), q⟩ (pre ++ [(s, ts)]) =
      .ok ((pre.map fun p => baseRecord incl p.1 p.2 ++ [Entry.str "0"])
            ++ [baseRecord incl s ts ++ [Entry.str l]],
           ⟨none, q⟩) := by
  induction pre with
  | nil =>
    have hstep := readData_of_pending incl l tl mts q s ts
    rw [if_pos ⟨hts, hl⟩] at hstep
    simp only [List.nil_append, List.map_nil, runReads, hstep, Except.bind]
  | cons p rest ih =>
    obtain ⟨ps, pts⟩ := p
    have hlt : pts < mts := hpre (ps, pts) (List.mem_cons_self _ _)
    have hstep := readData_of_pending incl l tl mts q ps pts
    rw [if_neg (fun hc => absurd hc.1 (not_le.mpr hlt))] at hstep
    have ih' := ih (fun p hp => hpre p (List.mem_cons_of_mem _ hp))
    simp only [List.cons_append, runReads, hstep, Except.bind,
      List.append_eq, ih', List.map_cons]

theorem marker_attach_amended_witness :
    runReads false ⟨some (["X"], (2 : ℚ)), []⟩ [([], 1), ([], 2)] =
      .ok ([[Entry.str "0"], [Entry.str "X"]], ⟨none, []⟩) :=
  marker_attach_amended false "X" [] 2 [] [([], 1)] [] 2
    (by simp)
    (by
      intro p hp
      rw [List.mem_singleton] at hp
      rw [hp]
      norm_num)
    (le_refl 2)

/-- C3: every record returned by `read_data` is the pulled raw sample
values, then (when timestamp passthrough is enabled) the sample's own
timestamp, then — always last — the trigger, a string that is either the
literal `"0"` or the first channel value of the pending or freshly
polled marker; the record's length is the raw value count plus the
number of appended channels. -/
theorem read_data_record_shape (incl : Bool) (st : RState) (s : List ℚ)
    (ts : ℚ) (r : List Entry) (st' : RState)
    (h : readData incl st s ts = .ok (r, st')) :
    ∃ t : String,
      r = s.map Entry.num ++ (if incl then [Entry.num ts] else [])
          ++ [Entry.str t]
      ∧ r.length = s.length + (appendedChannels incl).length
      ∧ (t = "0" ∨ ∃ tl mts, st.pending = some (t :: tl, mts)
          ∨ st.queue.head? = some (t :: tl, mts)) := by
  rcases st with ⟨p, q⟩
  cases p with
  | some m =>
    obtain ⟨chans, mts⟩ := m
    cases chans with
    | nil => exact absurd h (by rw [readData_of_pending_nil]; simp)
    | cons l tl =>
      rcases shape_of_pending incl l tl mts q s ts r st' h with
        ⟨hr, _, _, _⟩ | ⟨hr, _⟩
      · exact ⟨l, hr, by rw [hr]; exact length_base_trigger incl s ts l,
          Or.inr ⟨tl, mts, Or.inl rfl⟩⟩
      · exact ⟨"0", hr, by rw [hr]; exact length_base_trigger incl s ts "0",
          Or.inl rfl⟩
  | none =>
    cases q with
    | nil =>
      rw [readData_none_nil] at h
      simp only [Except.ok.injEq, Prod.mk.injEq] at h
      refine ⟨"0", by rw [← h.1, baseRecord_eq], ?_, Or.inl rfl⟩
      rw [← h.1, baseRecord_eq]
      exact length_base_trigger incl s ts "0"
    | cons m rest =>
      obtain ⟨chans, mts⟩ := m
      rw [readData_none_cons] at h
      cases chans with
      | nil => exact absurd h (by rw [readData_of_pending_nil]; simp)
      | cons l tl =>
        rcases shape_of_pending incl l tl mts rest s ts r st' h with
          ⟨hr, _, _, _⟩ | ⟨hr, _⟩
        · exact ⟨l, hr, by rw [hr]; exact length_base_trigger incl s ts l,
            Or.inr ⟨tl, mts, Or.inr rfl⟩⟩
        · exact ⟨"0", hr,
            by rw [hr]; exact length_base_trigger incl s ts "0",
            Or.inl rfl⟩

theorem read_data_record_shape_witness :
    ∃ t : String,
      [Entry.num 5, Entry.str "0"] =
        ([5] : List ℚ).map Entry.num ++
          (if false then [Entry.num (3 : ℚ)] else []) ++ [Entry.str t]
      ∧ ([Entry.num 5, Entry.str "0"] : List Entry).length =
        ([5] : List ℚ).length + (appendedChannels false).length
      ∧ (t = "0" ∨ ∃ tl mts,
          (⟨none, []⟩ : RState).pending = some (t :: tl, mts)
          ∨ (⟨none, []⟩ : RState).queue.head? = some (t :: tl, mts)) :=
  read_data_record_shape false ⟨none, []⟩ [5] 3
    [Entry.num 5, Entry.str "0"] ⟨none, []⟩ rfl

/-- C5: across any successful `read_data` step, a held marker means the
marker inlet is not polled (the buffer is untouched), and the held
marker leaves the pending slot only by being attached: either it is
still pending afterwards, or the slot is cleared and the emitted
record's last field is exactly that marker's (non-empty) label, the
sample timestamp having caught up. -/
theorem pending_marker_invariant (incl : Bool) (st : RState) (s : List ℚ)
    (ts : ℚ) (r : List Entry) (st' : RState)
    (h : readData incl st s ts = .ok (r, st')) :
    (st.pending.isSome = true → st'.queue = st.queue)
    ∧ (∀ m, st.pending = some m →
      st'.pending = some m ∨
        (st'.pending = none ∧ ∃ l tl, m.1 = l :: tl ∧ l ≠ "" ∧ ts ≥ m.2
          ∧ r.getLast? = some (Entry.str l))) := by
  rcases st with ⟨p, q⟩
  cases p with
  | some m =>
    obtain ⟨chans, mts⟩ := m
    cases chans with
    | nil => exact absurd h (by rw [readData_of_pending_nil]; simp)
    | cons l tl =>
      rcases shape_of_pending incl l tl mts q s ts r st' h with
        ⟨hr, hts, hl, hst⟩ | ⟨_, hst⟩
      · subst hst
        refine ⟨fun _ => rfl, fun m hm => ?_⟩
        cases hm
        refine Or.inr ⟨rfl, l, tl, rfl, hl, hts, ?_⟩
        rw [hr]
        simp [List.getLast?_concat]
      · subst hst
        exact ⟨fun _ => rfl, fun m hm => Or.inl (by rw [← hm])⟩
  | none =>
    refine ⟨fun habs => by simp at habs, fun m hm => by simp at hm⟩

theorem pending_marker_invariant_witness :
    ((⟨some (["X"], (1 : ℚ)), [(["Y"], 5)]⟩ : RState).pending.isSome = true →
      (⟨none, [(["Y"], 5)]⟩ : RState).queue =
        (⟨some (["X"], (1 : ℚ)), [(["Y"], 5)]⟩ : RState).queue)
    ∧ (∀ m, (⟨some (["X"], (1 : ℚ)), [(["Y"], 5)]⟩ : RState).pending = some m →
      (⟨none, [(["Y"], 5)]⟩ : RState).pending = some m ∨
        ((⟨none, [(["Y"], 5)]⟩ : RState).pending = none ∧
          ∃ l tl, m.1 = l :: tl ∧ l ≠ "" ∧ (1 : ℚ) ≥ m.2
            ∧ ([Entry.num 2, Entry.str "X"] : List Entry).getLast? =
              some (Entry.str l))) :=
  pending_marker_invariant false ⟨some (["X"], 1), [(["Y"], 5)]⟩ [2] 1
    [Entry.num 2, Entry.str "X"] ⟨none, [(["Y"], 5)]⟩ rfl

end LslSpec
